import Mathlib

/-!
Verification of the compressed-index document store decoder and reference
mapper implemented in `scripts/convert-sword-to-osis.py`.

The Python source is embedded shallowly:

* byte buffers are `List Nat` (each element one byte value);
* `struct.unpack` of the 12-byte index blocks becomes `parseIndex`;
* `zlib.decompress`, an external codec that either yields bytes or raises,
  is passed in as a parameter `d : List Nat → Option (List Nat)`;
* `bytes.decode ("utf-8", errors = ignore)` becomes `utf8_decode_ignore`;
* the per-slot loop of `read_sword_index` becomes `decodeSlotsAux`;
* the filesystem interactions of `convert_module_to_osis` (config file,
  data directory, index file lookup) are modelled as fields of `SwordModule`;
* the emitted XML lines are `List String`.
-/

/-- One 12-byte index entry: `offset, size, comp_size = struct.unpack('<III', idx_entry)`. -/
structure IndexRecord where
  offset : Nat
  size : Nat
  compSize : Nat
deriving DecidableEq

/-- The little-endian 32-bit value stored at byte position `p` of a buffer:
one `I` field of `struct.unpack('<III', ...)`. The fallback 0 of `getD` is
never hit at the positions `parseIndex` uses, since they stay below
`(len(buf) / 12) * 12`. -/
def le32At (l : List Nat) (p : Nat) : Nat :=
  l.getD p 0 + 256 * l.getD (p + 1) 0 + 65536 * l.getD (p + 2) 0 + 16777216 * l.getD (p + 3) 0

/-- The index parse of `read_sword_index` (source lines 71-79):
`num_entries = len(idx_data) // entry_size` with `entry_size = 12`, and for
each `i` in that range, `idx_data[i*12:(i+1)*12]` unpacked as three
little-endian 32-bit fields; a trailing block of fewer than 12 bytes is
dropped by the integer division. -/
def parseIndex (buf : List Nat) : List IndexRecord :=
  (List.range (buf.length / 12)).map (fun i =>
    ⟨le32At buf (12 * i), le32At buf (12 * i + 4), le32At buf (12 * i + 8)⟩)

/-- A UTF-8 continuation byte. -/
def isCont (b : Nat) : Bool := 0x80 ≤ b ∧ b ≤ 0xBF

/-- Classify the byte `b` followed by `rest` as the start of a valid UTF-8
sequence: returns the decoded code point and the number of continuation bytes
consumed, or `none` for an invalid start. Valid ranges follow the UTF-8
definition used by CPython's codec (no overlongs, no surrogates, max U+10FFFF). -/
def utf8Seq (b : Nat) (rest : List Nat) : Option (Nat × Nat) :=
  if b ≤ 0x7F then some (b, 0)
  else if 0xC2 ≤ b ∧ b ≤ 0xDF then
    match rest with
    | b2 :: _ =>
        if isCont b2 then some ((b - 0xC0) * 64 + (b2 - 0x80), 1) else none
    | _ => none
  else if 0xE0 ≤ b ∧ b ≤ 0xEF then
    match rest with
    | b2 :: b3 :: _ =>
        if (if b = 0xE0 then 0xA0 ≤ b2 ∧ b2 ≤ 0xBF
            else if b = 0xED then 0x80 ≤ b2 ∧ b2 ≤ 0x9F
            else isCont b2 = true) ∧ isCont b3 then
          some ((b - 0xE0) * 4096 + (b2 - 0x80) * 64 + (b3 - 0x80), 2)
        else none
    | _ => none
  else if 0xF0 ≤ b ∧ b ≤ 0xF4 then
    match rest with
    | b2 :: b3 :: b4 :: _ =>
        if (if b = 0xF0 then 0x90 ≤ b2 ∧ b2 ≤ 0xBF
            else if b = 0xF4 then 0x80 ≤ b2 ∧ b2 ≤ 0x8F
            else isCont b2 = true) ∧ isCont b3 ∧ isCont b4 then
          some ((b - 0xF0) * 262144 + (b2 - 0x80) * 4096 + (b3 - 0x80) * 64 + (b4 - 0x80), 3)
        else none
    | _ => none
  else none

/-- UTF-8 decoding of a byte list to a list of code points, parameterised by
the error policy: `rep = false` skips an offending byte (CPython
`errors = ignore`, the policy the source uses), `rep = true` emits U+FFFD for
it (`errors = replace`, the policy the spec describes). For lone invalid
bytes the two models agree exactly with CPython; in ignore mode skipping
byte-by-byte drops the same bytes as CPython's maximal-subpart rule, since a
stray continuation byte is itself an invalid start. -/
def utf8DecodeAux (rep : Bool) : Nat → List Nat → List Nat
  | 0, _ => []
  | _, [] => []
  | fuel + 1, b :: rest =>
    match utf8Seq b rest with
    | some (cp, k) => cp :: utf8DecodeAux rep fuel (rest.drop k)
    | none =>
      if rep then 0xFFFD :: utf8DecodeAux rep fuel rest else utf8DecodeAux rep fuel rest

/-- Entry point of the decoder: the fuel `l.length` is enough because every
step consumes at least one byte. -/
def utf8DecodeP (rep : Bool) (l : List Nat) : List Nat := utf8DecodeAux rep l.length l

/-- `bytes.decode('utf-8', errors='ignore')` of the source (line 88). -/
def utf8_decode_ignore : List Nat → List Nat := utf8DecodeP false

/-- Modelled from the spec: "Decode the decompressed bytes as UTF-8 text;
invalid byte sequences are replaced (never fatal)" — the `errors = replace`
policy, for comparison with the source's `errors = ignore`. -/
def utf8_decode_replace : List Nat → List Nat := utf8DecodeP true

/-- `text[:200]` after decoding: the stored entry text (source line 88-89). -/
def textOf (bytes : List Nat) : String :=
  String.mk (((utf8_decode_ignore bytes).take 200).map Char.ofNat)

/-- One iteration of the loop body of `read_sword_index` (source lines 81-91)
for index record `r`: an entry is produced only when `offset > 0 and size > 0`
and decompression (`d`) of the `comp_size` bytes read at `offset` succeeds;
an empty slot or a decompression failure produces nothing. -/
def decodeSlot (d : List Nat → Option (List Nat)) (dat : List Nat) (r : IndexRecord) :
    Option String :=
  if 0 < r.offset ∧ 0 < r.size then
    match d ((dat.drop r.offset).take r.compSize) with
    | some bytes => some (textOf bytes)
    | none => none
  else none

/-- The loop `for i in range(min(num_entries, 100))` building `entries`,
carried out over an explicit slot counter; the dictionary keyed by slot index
becomes an association list in increasing key order. -/
def decodeSlotsAux (d : List Nat → Option (List Nat)) (dat : List Nat) :
    Nat → List IndexRecord → List (Nat × String)
  | _, [] => []
  | i, r :: rs =>
    match decodeSlot d dat r with
    | some t => (i, t) :: decodeSlotsAux d dat (i + 1) rs
    | none => decodeSlotsAux d dat (i + 1) rs

/-- The decode pass of `read_sword_index`: only the first
`min(num_entries, 100)` index records are visited. -/
def decodeSlots (d : List Nat → Option (List Nat)) (rs : List IndexRecord)
    (dat : List Nat) : List (Nat × String) :=
  decodeSlotsAux d dat 0 (rs.take 100)

/-- A module directory, with the filesystem interactions of
`convert_module_to_osis` modelled as fields: whether a `.conf` file exists,
whether the data directory exists, the bytes of the index file when one of
`mhc.zdx` / `mhc.idx` is found (`none` when neither exists), and the bytes of
the companion data file. -/
structure SwordModule where
  hasConf : Bool
  hasDataDir : Bool
  idxData : Option (List Nat)
  datData : List Nat

/-- `read_sword_index` (source lines 45-98): an absent index file yields the
empty entry dictionary; otherwise the index bytes are parsed into 12-byte
records and the first 100 slots are decoded against the data bytes. -/
def read_sword_index (d : List Nat → Option (List Nat)) (m : SwordModule) :
    List (Nat × String) :=
  match m.idxData with
  | none => []
  | some idx => decodeSlots d (parseIndex idx) m.datData

/-- The two counts the source prints: `num_entries` ("Found N index entries",
line 75) and `len(entries)` ("Successfully read K entries", line 93). These
are the only aggregate numbers `read_sword_index` reports. -/
def reportedCounts (d : List Nat → Option (List Nat)) (m : SwordModule) : Nat × Nat :=
  match m.idxData with
  | none => (0, 0)
  | some idx => ((parseIndex idx).length, (decodeSlots d (parseIndex idx) m.datData).length)

/-- Modelled from the spec ("slots skipped (empty)"): the number of visited
slots whose record has `offset == 0 || length == 0` — a ground-truth counter
the source does not maintain. -/
def emptyCount (rs : List IndexRecord) : Nat :=
  ((rs.take 100).filter (fun r => decide (r.offset = 0 ∨ r.size = 0))).length

/-- Modelled from the spec ("slots failed (read/decompress error)"): the
number of visited non-empty slots whose payload fails to decompress — a
ground-truth counter the source does not maintain. -/
def failedCount (d : List Nat → Option (List Nat)) (rs : List IndexRecord)
    (dat : List Nat) : Nat :=
  ((rs.take 100).filter (fun r =>
    decide (0 < r.offset ∧ 0 < r.size) &&
      (d ((dat.drop r.offset).take r.compSize)).isNone)).length

/-- `KJV_BOOKS` (source lines 19-27): the ordered catalog of 66 work codes. -/
def KJV_BOOKS : List String :=
  ["Gen", "Exod", "Lev", "Num", "Deut", "Josh", "Judg", "Ruth", "1Sam", "2Sam",
   "1Kgs", "2Kgs", "1Chr", "2Chr", "Ezra", "Neh", "Esth", "Job", "Ps", "Prov",
   "Eccl", "Song", "Isa", "Jer", "Lam", "Ezek", "Dan", "Hos", "Joel", "Amos",
   "Obad", "Jonah", "Mic", "Nah", "Hab", "Zeph", "Hag", "Zech", "Mal",
   "Matt", "Mark", "Luke", "John", "Acts", "Rom", "1Cor", "2Cor", "Gal", "Eph",
   "Phil", "Col", "1Thess", "2Thess", "1Tim", "2Tim", "Titus", "Phlm", "Heb",
   "Jas", "1Pet", "2Pet", "1John", "2John", "3John", "Jude", "Rev"]

/-- `MAX_VERSES_PER_CHAPTER = 200` (source line 43). -/
def MAX_VERSES_PER_CHAPTER : Nat := 200

/-- The slot-to-reference mapping of source lines 146-150: work ordinal
`idx // (50 * 200)`, then 1-based chapter and verse from the fixed 50x200
capacity; `none` when the work ordinal falls outside the catalog (the guard
`if book_idx < len(KJV_BOOKS)` has no else branch). -/
def referenceMap (idx : Nat) : Option (String × Nat × Nat) :=
  let bookIdx := idx / (50 * MAX_VERSES_PER_CHAPTER)
  if h : bookIdx < KJV_BOOKS.length then
    some (KJV_BOOKS.get ⟨bookIdx, h⟩,
      ((idx % (50 * MAX_VERSES_PER_CHAPTER)) / MAX_VERSES_PER_CHAPTER) + 1,
      (idx % MAX_VERSES_PER_CHAPTER) + 1)
  else none

/-- Python's `str.replace` for a single-character needle, on character lists:
every occurrence of `needle` becomes `rep`. -/
def pyReplace (needle : Char) (rep : List Char) : List Char → List Char
  | [] => []
  | c :: rest => (if c = needle then rep else [c]) ++ pyReplace needle rep rest

/-- `text.replace('&','&amp;').replace('<','&lt;').replace('>','&gt;')`
(source line 153), applied in that order. -/
def escape_text (s : String) : String :=
  String.mk (pyReplace '>' ['&', 'g', 't', ';']
    (pyReplace '<' ['&', 'l', 't', ';']
      (pyReplace '&' ['&', 'a', 'm', 'p', ';'] s.data)))

/-- Per-character expansion of the three markup metacharacters; every other
character is left alone (used to state what `escape_text` does). -/
def escChar (c : Char) : List Char :=
  if c = '&' then ['&', 'a', 'm', 'p', ';']
  else if c = '<' then ['&', 'l', 't', ';']
  else if c = '>' then ['&', 'g', 't', ';']
  else [c]

/-- Modelled from the spec ("re-parsing the escaped text yields the original
text content"): the inverse of the escaping, turning each entity reference
back into its character. -/
def unescapeChars : List Char → List Char
  | '&' :: 'a' :: 'm' :: 'p' :: ';' :: r2 => '&' :: unescapeChars r2
  | '&' :: 'l' :: 't' :: ';' :: r2 => '<' :: unescapeChars r2
  | '&' :: 'g' :: 't' :: ';' :: r2 => '>' :: unescapeChars r2
  | c :: rest => c :: unescapeChars rest
  | [] => []

/-- String wrapper of `unescapeChars`. -/
def unescape_text (s : String) : String := String.mk (unescapeChars s.data)

/-- The body of the writer loop (source lines 145-154) for one entry: when the
slot maps into the catalog, the emitted line carries `osisID="book.chapter.verse"`
and the escaped text; an out-of-range slot produces no line. -/
def verseElem (idx : Nat) (text : String) : Option String :=
  match referenceMap idx with
  | some (book, chapter, verse) =>
      some ("    <verse osisID=\"" ++ book ++ "." ++ toString chapter ++ "." ++
        toString verse ++ "\">" ++ escape_text text ++ "</verse>\n")
  | none => none

/-- The writer loop `for idx, text in list(entries.items())[:50]`
(source line 144): only the first 50 entries are visited. -/
def writeVerses (entries : List (Nat × String)) : List String :=
  (entries.take 50).filterMap (fun p => verseElem p.1 p.2)

/-- The full document written by `convert_module_to_osis` (lines 139-157):
fixed declaration and header lines, the verse lines, fixed footer lines. -/
def osisDoc (verses : List String) : List String :=
  ["<?xml version=\"1.0\" encoding=\"UTF-8\"?>\n",
   "<osis xmlns=\"http://www.bibletechnologies.net/2003/OSIS/namespace\">\n",
   "  <osisText osisIDWork=\"Bible\">\n"] ++ verses ++
  ["  </osisText>\n", "</osis>\n"]

/-- `convert_module_to_osis` (source lines 100-169): `none` models a `False`
return (missing `.conf` file, line 109-111, or missing data directory, lines
125-127 — the module is aborted); otherwise the document is written and the
module reports success, whether or not any entries were found (lines 130-163:
an empty `entries` dictionary only prints a warning, line 132-133). -/
def convert_module_to_osis (d : List Nat → Option (List Nat)) (m : SwordModule) :
    Option (List String) :=
  if m.hasConf = false then none
  else if m.hasDataDir = false then none
  else some (osisDoc (writeVerses (read_sword_index d m)))

/-- Decompression oracle used for concrete runs: fails exactly on the payload
byte `[9]`, otherwise succeeds with the bytes of "Hi". -/
def dOracle : List Nat → Option (List Nat) :=
  fun b => if b = [9] then none else some [72, 105]

/-- Index buffer with two records: slot 0 valid, slot 1 pointing at the
corrupt payload byte. -/
def idxA : List Nat := [1,0,0,0, 5,0,0,0, 1,0,0,0, 2,0,0,0, 5,0,0,0, 1,0,0,0]

/-- Index buffer with two records: slot 0 valid, slot 1 empty. -/
def idxB : List Nat := [1,0,0,0, 5,0,0,0, 1,0,0,0, 0,0,0,0, 0,0,0,0, 0,0,0,0]

/-- Index buffer with one empty record. -/
def idxC : List Nat := [0,0,0,0, 0,0,0,0, 0,0,0,0]

/-- Index buffer with one record pointing at the corrupt payload byte. -/
def idxD : List Nat := [2,0,0,0, 1,0,0,0, 1,0,0,0]

/-- The shared data blob for the concrete runs. -/
def datAB : List Nat := [0, 7, 9]

/-- Module with index `idxA`. -/
def modA : SwordModule := ⟨true, true, some idxA, datAB⟩

/-- Module with index `idxB`. -/
def modB : SwordModule := ⟨true, true, some idxB, datAB⟩

/-- Module with index `idxC`. -/
def modC : SwordModule := ⟨true, true, some idxC, datAB⟩

/-- Module with index `idxD`. -/
def modD : SwordModule := ⟨true, true, some idxD, datAB⟩

/-- 51 decoded records (slots 0..50, empty text), all mapping inside the
catalog. -/
def demo51 : List (Nat × String) := (List.range 51).map (fun i => (i, ""))

/-- Decompression oracle that always succeeds, yielding an invalid UTF-8 byte
followed by "A". -/
def dTotal : List Nat → Option (List Nat) := fun _ => some [255, 65]

/-- Single-record run used as a noninterference witness (size 1). -/
def rsW1 : List IndexRecord := [⟨1, 1, 1⟩]

/-- Single-record run used as a noninterference witness (size 7, all else equal). -/
def rsW2 : List IndexRecord := [⟨1, 7, 1⟩]

/-! ## Helper lemmas -/

lemma parseIndex_length (buf : List Nat) : (parseIndex buf).length = buf.length / 12 := by
  simp [parseIndex]

lemma parseIndex_get? (buf : List Nat) (j : Nat) (h : j < buf.length / 12) :
    (parseIndex buf).get? j =
      some ⟨le32At buf (12 * j), le32At buf (12 * j + 4), le32At buf (12 * j + 8)⟩ := by
  simp only [parseIndex, List.get?_eq_getElem?, List.getElem?_map, List.getElem?_range h]
  rfl

lemma KJV_BOOKS_length : KJV_BOOKS.length = 66 := by rfl

lemma referenceMap_eq_of_lt (i : Nat) (h : i / 10000 < 66) :
    referenceMap i =
      some (KJV_BOOKS.getD (i / 10000) "", (i % 10000) / 200 + 1, i % 200 + 1) := by
  have e : 50 * MAX_VERSES_PER_CHAPTER = 10000 := rfl
  have hl : i / (50 * MAX_VERSES_PER_CHAPTER) < KJV_BOOKS.length := by
    rw [e, KJV_BOOKS_length]; exact h
  have hget : KJV_BOOKS.getD (i / 10000) "" =
      KJV_BOOKS.get ⟨i / 10000, by rw [KJV_BOOKS_length]; exact h⟩ := by
    rw [List.getD_eq_getElem?_getD, List.getElem?_eq_getElem]; rfl
  simp only [referenceMap]
  rw [dif_pos hl, hget]
  rfl

lemma referenceMap_isSome_iff (i : Nat) : (referenceMap i).isSome ↔ i < 660000 := by
  have e : 50 * MAX_VERSES_PER_CHAPTER = 10000 := rfl
  constructor
  · intro hs
    by_contra hge
    push_neg at hge
    have hni : ¬ i / (50 * MAX_VERSES_PER_CHAPTER) < KJV_BOOKS.length := by
      rw [e, KJV_BOOKS_length]; omega
    simp only [referenceMap] at hs
    rw [dif_neg hni] at hs
    simp at hs
  · intro hlt
    have hl : i / (50 * MAX_VERSES_PER_CHAPTER) < KJV_BOOKS.length := by
      rw [e, KJV_BOOKS_length]; omega
    simp only [referenceMap]
    rw [dif_pos hl]
    rfl

lemma referenceMap_eq_none_iff (i : Nat) : referenceMap i = none ↔ 660000 ≤ i := by
  rw [← Option.not_isSome_iff_eq_none, referenceMap_isSome_iff]
  omega

lemma verseElem_isSome_iff (i : Nat) (t : String) :
    (verseElem i t).isSome ↔ (referenceMap i).isSome := by
  unfold verseElem
  cases h : referenceMap i with
  | none => simp
  | some p => obtain ⟨b, c, v⟩ := p; simp

lemma decodeSlotsAux_lookup (d : List Nat → Option (List Nat)) (dat : List Nat)
    (rs : List IndexRecord) :
    ∀ n i : Nat, (decodeSlotsAux d dat n rs).lookup i =
      if n ≤ i ∧ i - n < rs.length then decodeSlot d dat (rs.getD (i - n) ⟨0, 0, 0⟩)
      else none := by
  induction rs with
  | nil =>
      intro n i
      simp [decodeSlotsAux]
  | cons r rs ih =>
      intro n i
      cases hslot : decodeSlot d dat r with
      | some t =>
          simp only [decodeSlotsAux, hslot]
          by_cases hin : i = n
          · subst hin
            have h1 : List.lookup i ((i, t) :: decodeSlotsAux d dat (i + 1) rs) = some t := by
              simp [List.lookup]
            rw [h1, if_pos ⟨le_refl i, by simp⟩]
            simp [hslot]
          · have hbeq : (i == n) = false := beq_eq_false_iff_ne.mpr hin
            have h1 : List.lookup i ((n, t) :: decodeSlotsAux d dat (n + 1) rs) =
                List.lookup i (decodeSlotsAux d dat (n + 1) rs) := by
              simp [List.lookup, hbeq]
            rw [h1, ih]
            by_cases hc : n + 1 ≤ i ∧ i - (n + 1) < rs.length
            · rw [if_pos hc, if_pos (by simp only [List.length_cons]; omega)]
              have he : i - n = (i - (n + 1)) + 1 := by omega
              rw [he, List.getD_cons_succ]
            · rw [if_neg hc, if_neg (by simp only [List.length_cons]; omega)]
      | none =>
          simp only [decodeSlotsAux, hslot]
          by_cases hin : i = n
          · subst hin
            rw [ih, if_neg (by omega), if_pos ⟨le_refl i, by simp⟩]
            simp [hslot]
          · rw [ih]
            by_cases hc : n + 1 ≤ i ∧ i - (n + 1) < rs.length
            · rw [if_pos hc, if_pos (by simp only [List.length_cons]; omega)]
              have he : i - n = (i - (n + 1)) + 1 := by omega
              rw [he, List.getD_cons_succ]
            · rw [if_neg hc, if_neg (by simp only [List.length_cons]; omega)]

lemma decodeSlots_lookup (d : List Nat → Option (List Nat)) (rs : List IndexRecord)
    (dat : List Nat) (i : Nat) :
    (decodeSlots d rs dat).lookup i =
      if i < min rs.length 100 then decodeSlot d dat (rs.getD i ⟨0, 0, 0⟩)
      else none := by
  rw [decodeSlots, decodeSlotsAux_lookup]
  by_cases hc : i < min rs.length 100
  · rw [if_pos (by simp; omega), if_pos hc]
    congr 1
    rw [Nat.sub_zero]
    have hi100 : i < 100 := by omega
    simp [List.getD, List.getElem?_take, hi100]
  · rw [if_neg (by simp; omega), if_neg hc]

lemma pyReplace_eq_bind (needle : Char) (rep : List Char) (l : List Char) :
    pyReplace needle rep l = l.flatMap (fun c => if c = needle then rep else [c]) := by
  induction l with
  | nil => rfl
  | cons c rest ih => simp [pyReplace, ih]

lemma escape_chars_eq_bind (s : List Char) :
    pyReplace '>' ['&', 'g', 't', ';']
      (pyReplace '<' ['&', 'l', 't', ';']
        (pyReplace '&' ['&', 'a', 'm', 'p', ';'] s)) = s.flatMap escChar := by
  induction s with
  | nil => rfl
  | cons c rest ih =>
      rw [pyReplace]
      by_cases h1 : c = '&'
      · subst h1
        rw [if_pos rfl]
        repeat rw [pyReplace_eq_bind] at ih ⊢
        simp only [List.flatMap_append, ih, List.flatMap_cons]
        rw [escChar]
        simp
      · rw [if_neg h1]
        repeat rw [pyReplace_eq_bind] at ih ⊢
        simp only [List.flatMap_append, ih, List.flatMap_cons]
        by_cases h2 : c = '<'
        · subst h2
          rw [escChar]
          simp
        · by_cases h3 : c = '>'
          · subst h3
            rw [escChar]
            simp
          · rw [escChar, if_neg h1, if_neg h2, if_neg h3]
            simp [h2, h3]

lemma unescape_flatMap_escChar (s : List Char) :
    unescapeChars (s.flatMap escChar) = s := by
  induction s with
  | nil => rfl
  | cons c rest ih =>
      rw [List.flatMap_cons]
      by_cases h1 : c = '&'
      · subst h1
        rw [escChar, if_pos rfl]
        simp only [List.cons_append, List.nil_append]
        rw [unescapeChars, ih]
      · by_cases h2 : c = '<'
        · subst h2
          rw [escChar, if_neg (by decide), if_pos rfl]
          simp only [List.cons_append, List.nil_append]
          rw [unescapeChars, ih]
        · by_cases h3 : c = '>'
          · subst h3
            rw [escChar, if_neg (by decide), if_neg (by decide), if_pos rfl]
            simp only [List.cons_append, List.nil_append]
            rw [unescapeChars, ih]
          · rw [escChar, if_neg h1, if_neg h2, if_neg h3]
            simp only [List.cons_append, List.nil_append]
            rw [unescapeChars.eq_def]
            split
            · simp_all
            · simp_all
            · simp_all
            · simp_all [ih]
            · simp_all

/-! ## Claim theorems -/

/-- C1: for every slot index `i` whose work ordinal `i / (50*200)` is below the
66 works of the catalog, the mapped reference is
`(catalog[i / 10000], (i mod 10000) / 200 + 1, (i mod 10000) mod 200 + 1)`,
with the fixed capacities of 50 subdivisions and 200 units for every work; and
the implementation's unit formula `(i mod 200) + 1` agrees with the spec's
`((i mod 10000) mod 200) + 1` at every index. -/
theorem reference_mapping_fixed_capacity (i : Nat) (h : i / (50 * 200) < 66) :
    referenceMap i =
      some (KJV_BOOKS.getD (i / 10000) "", (i % 10000) / 200 + 1, (i % 10000) % 200 + 1) ∧
    ∀ n : Nat, n % 200 + 1 = n % 10000 % 200 + 1 := by
  constructor
  · have h' : i / 10000 < 66 := by norm_num at h; exact h
    rw [referenceMap_eq_of_lt i h', Nat.mod_mod_of_dvd i (by norm_num : (200:ℕ) ∣ 10000)]
  · intro n
    rw [Nat.mod_mod_of_dvd n (by norm_num : (200:ℕ) ∣ 10000)]

/-- Witness for C1 at the concrete slot index 123456 (work ordinal 12). -/
theorem reference_mapping_fixed_capacity_witness :
    123456 / (50 * 200) < 66 ∧
    (referenceMap 123456 =
        some (KJV_BOOKS.getD (123456 / 10000) "", (123456 % 10000) / 200 + 1,
          (123456 % 10000) % 200 + 1) ∧
      ∀ n : Nat, n % 200 + 1 = n % 10000 % 200 + 1) :=
  ⟨by decide, reference_mapping_fixed_capacity 123456 (by decide)⟩

/-- C2: the index parse yields exactly `length(buffer) / 12` records, each
complete 12-byte block read as three little-endian 32-bit fields
(offset, length, compressedLength); a trailing partial block is dropped and
the empty buffer gives zero records, not an error. -/
theorem index_reader_blocks (buf : List Nat) (j : Nat) (h : j < buf.length / 12) :
    (parseIndex buf).length = buf.length / 12 ∧
    (parseIndex buf).get? j =
      some ⟨le32At buf (12 * j), le32At buf (12 * j + 4), le32At buf (12 * j + 8)⟩ ∧
    parseIndex [] = [] :=
  ⟨parseIndex_length buf, parseIndex_get? buf j h, rfl⟩

/-- Witness for C2 on a concrete 13-byte buffer (one complete block plus one
trailing byte). -/
theorem index_reader_blocks_witness :
    0 < ([1, 0, 0, 0, 2, 0, 0, 0, 3, 0, 0, 0, 99] : List Nat).length / 12 ∧
    ((parseIndex [1, 0, 0, 0, 2, 0, 0, 0, 3, 0, 0, 0, 99]).length =
        ([1, 0, 0, 0, 2, 0, 0, 0, 3, 0, 0, 0, 99] : List Nat).length / 12 ∧
      (parseIndex [1, 0, 0, 0, 2, 0, 0, 0, 3, 0, 0, 0, 99]).get? 0 =
        some ⟨le32At [1, 0, 0, 0, 2, 0, 0, 0, 3, 0, 0, 0, 99] (12 * 0),
          le32At [1, 0, 0, 0, 2, 0, 0, 0, 3, 0, 0, 0, 99] (12 * 0 + 4),
          le32At [1, 0, 0, 0, 2, 0, 0, 0, 3, 0, 0, 0, 99] (12 * 0 + 8)⟩ ∧
      parseIndex [] = []) :=
  ⟨by decide, index_reader_blocks [1, 0, 0, 0, 2, 0, 0, 0, 3, 0, 0, 0, 99] 0 (by decide)⟩

/-- C6: a slot index resolves to a reference exactly when it is below the
total addressable capacity `50 * 200 * 66`; at or above it no reference is
produced and the writer emits no element for the slot. -/
theorem slot_capacity_resolves (i : Nat) (t : String) :
    ((referenceMap i).isSome ↔ i < 50 * 200 * 66) ∧
    ((verseElem i t).isSome ↔ i < 50 * 200 * 66) := by
  have h1 := referenceMap_isSome_iff i
  have h2 := verseElem_isSome_iff i t
  constructor
  · rw [h1]
  · rw [h2, h1]

/-- C8: the writer's escaping expands exactly the characters `&`, `<`, `>`
(ampersand first) and leaves every other character unchanged, and unescaping
the escaped text restores the original text. -/
theorem escaping_exact_and_lossless (s : String) :
    escape_text s = String.mk (s.data.flatMap escChar) ∧
    unescape_text (escape_text s) = s := by
  have h1 : escape_text s = String.mk (s.data.flatMap escChar) := by
    rw [escape_text, escape_chars_eq_bind]
  refine ⟨h1, ?_⟩
  rw [h1, unescape_text]
  have hd : (String.mk (s.data.flatMap escChar)).data = s.data.flatMap escChar := rfl
  rw [hd, unescape_flatMap_escChar]

/-- C9 (amended): the per-slot text decode step is total and never counts as a
failure — whenever a non-empty slot's payload decompresses, a record is
emitted whatever bytes the payload holds; invalid UTF-8 byte sequences are
however dropped (`errors='ignore'`), not replaced. -/
theorem utf8_decode_step_total (d : List Nat → Option (List Nat)) (dat : List Nat)
    (r : IndexRecord) (h1 : 0 < r.offset) (h2 : 0 < r.size)
    (h3 : (d ((dat.drop r.offset).take r.compSize)).isSome = true) :
    (decodeSlot d dat r).isSome = true := by
  simp only [decodeSlot, if_pos (And.intro h1 h2)]
  obtain ⟨bytes, hb⟩ := Option.isSome_iff_exists.mp h3
  simp [hb]

/-- Witness for C9 on a slot whose payload decompresses to an invalid UTF-8
byte followed by "A": the record is still emitted. -/
theorem utf8_decode_step_total_witness :
    0 < (⟨1, 1, 0⟩ : IndexRecord).offset ∧ 0 < (⟨1, 1, 0⟩ : IndexRecord).size ∧
    (dTotal ((List.drop (⟨1, 1, 0⟩ : IndexRecord).offset [0]).take
        (⟨1, 1, 0⟩ : IndexRecord).compSize)).isSome = true ∧
    (decodeSlot dTotal [0] ⟨1, 1, 0⟩).isSome = true :=
  ⟨by decide, by decide, rfl,
    utf8_decode_step_total dTotal [0] ⟨1, 1, 0⟩ (by decide) (by decide) rfl⟩

/-- C9 counterexample: on the payload `[255, 65]` the source's decode drops
the invalid byte 255, producing "A", while the spec's replacement policy
yields U+FFFD followed by "A" — invalid sequences are ignored, not replaced. -/
theorem ignore_differs_from_replace :
    utf8_decode_ignore [255, 65] = [65] ∧
    utf8_decode_replace [255, 65] = [65533, 65] ∧
    textOf [255, 65] = "A" ∧
    utf8_decode_ignore [255, 65] ≠ utf8_decode_replace [255, 65] := by
  refine ⟨by decide, by decide, by decide, by decide⟩

/-- C10: two decode runs over index records that agree on offset and
compressedLength and both have a positive length field produce identical
entry sequences — the length field only feeds the emptiness check, and only
compressedLength determines what is read and decompressed. -/
theorem length_field_noninterference (d : List Nat → Option (List Nat)) (dat : List Nat)
    (rs1 rs2 : List IndexRecord)
    (h : List.Forall₂ (fun r1 r2 => r1.offset = r2.offset ∧ r1.compSize = r2.compSize ∧
      0 < r1.size ∧ 0 < r2.size) rs1 rs2) :
    decodeSlots d rs1 dat = decodeSlots d rs2 dat := by
  have hslot : ∀ r1 r2 : IndexRecord, r1.offset = r2.offset → r1.compSize = r2.compSize →
      0 < r1.size → 0 < r2.size → decodeSlot d dat r1 = decodeSlot d dat r2 := by
    intro r1 r2 hoff hcomp hs1 hs2
    by_cases ho : 0 < r1.offset
    · rw [decodeSlot, decodeSlot, if_pos ⟨ho, hs1⟩, if_pos ⟨hoff ▸ ho, hs2⟩, hoff, hcomp]
    · rw [decodeSlot, decodeSlot, if_neg (by tauto), if_neg (by rw [← hoff]; tauto)]
  have htake := List.forall₂_take 100 h
  have haux : ∀ (l1 l2 : List IndexRecord),
      List.Forall₂ (fun r1 r2 => r1.offset = r2.offset ∧ r1.compSize = r2.compSize ∧
        0 < r1.size ∧ 0 < r2.size) l1 l2 →
      ∀ n, decodeSlotsAux d dat n l1 = decodeSlotsAux d dat n l2 := by
    intro l1 l2 hf
    induction hf with
    | nil => intro n; rfl
    | cons hr hrest ih =>
        intro n
        obtain ⟨hoff, hcomp, hs1, hs2⟩ := hr
        have he := hslot _ _ hoff hcomp hs1 hs2
        simp only [decodeSlotsAux, he]
        cases hd : decodeSlot d dat _ with
        | some t => simp only [ih]
        | none => simp only [ih]
  rw [decodeSlots, decodeSlots]
  exact haux _ _ htake 0

/-- Witness for C10: two single-record runs differing only in the positive
length field (1 vs 7) decode identically. -/
theorem length_field_noninterference_witness :
    List.Forall₂ (fun r1 r2 => r1.offset = r2.offset ∧ r1.compSize = r2.compSize ∧
      0 < r1.size ∧ 0 < r2.size) rsW1 rsW2 ∧
    decodeSlots dOracle rsW1 datAB = decodeSlots dOracle rsW2 datAB := by
  have hf : List.Forall₂ (fun r1 r2 => r1.offset = r2.offset ∧ r1.compSize = r2.compSize ∧
      0 < r1.size ∧ 0 < r2.size) rsW1 rsW2 :=
    List.Forall₂.cons ⟨rfl, rfl, by decide, by decide⟩ List.Forall₂.nil
  exact ⟨hf, length_field_noninterference dOracle datAB rsW1 rsW2 hf⟩

/-- C3 (amended): a decompression failure on one slot never aborts the scan
and never changes any other slot's outcome: two runs whose index records agree
everywhere except at slot `j` emit the same record at every other slot. -/
theorem decode_failure_isolated (d : List Nat → Option (List Nat)) (dat : List Nat)
    (rs1 rs2 : List IndexRecord) (j : Nat)
    (hlen : rs1.length = rs2.length)
    (hagree : ∀ k, k ≠ j → rs1.getD k ⟨0, 0, 0⟩ = rs2.getD k ⟨0, 0, 0⟩) :
    ∀ i, i ≠ j → (decodeSlots d rs1 dat).lookup i = (decodeSlots d rs2 dat).lookup i := by
  intro i hij
  rw [decodeSlots_lookup, decodeSlots_lookup, hlen, hagree i hij]

/-- Witness for C3: runs over `idxA` (slot 1 corrupt) and `idxB` (slot 1
empty) agree at slot 0. -/
theorem decode_failure_isolated_witness :
    (parseIndex idxA).length = (parseIndex idxB).length ∧
    (decodeSlots dOracle (parseIndex idxA) datAB).lookup 0 =
      (decodeSlots dOracle (parseIndex idxB) datAB).lookup 0 := by
  have hlenA : (parseIndex idxA).length = 2 := by decide
  have hlenB : (parseIndex idxB).length = 2 := by decide
  have hagree : ∀ k, k ≠ 1 →
      (parseIndex idxA).getD k ⟨0, 0, 0⟩ = (parseIndex idxB).getD k ⟨0, 0, 0⟩ := by
    intro k hk
    match k with
    | 0 => decide
    | 1 => exact absurd rfl hk
    | (n + 2) =>
        rw [List.getD_eq_default, List.getD_eq_default]
        · rw [hlenB]; omega
        · rw [hlenA]; omega
  exact ⟨by decide,
    decode_failure_isolated dOracle datAB (parseIndex idxA) (parseIndex idxB) 1
      (by decide) hagree 0 (by decide)⟩

/-- C3 counterexample: the run over `idxA` (slot 1 corrupt) and the run over
`idxB` (slot 1 empty) produce identical entries and identical reported counts
("found" and "successfully read"), yet their ground-truth failed-slot counts
differ (1 vs 0) — so the code reports no count of failed or skipped slots. -/
theorem no_failure_count_reported :
    read_sword_index dOracle modA = [(0, "Hi")] ∧
    read_sword_index dOracle modA = read_sword_index dOracle modB ∧
    reportedCounts dOracle modA = reportedCounts dOracle modB ∧
    failedCount dOracle (parseIndex idxA) datAB = 1 ∧
    failedCount dOracle (parseIndex idxB) datAB = 0 :=
  ⟨by decide, by decide, by decide, by decide, by decide⟩

lemma failedCount_singleton_empty (d : List Nat → Option (List Nat)) (dat : List Nat)
    (r : IndexRecord) (h : r.offset = 0 ∨ r.size = 0) :
    failedCount d [r] dat = 0 := by
  rcases h with h | h <;> simp [failedCount, List.filter, h]

lemma emptyCount_singleton_empty (r : IndexRecord) (h : r.offset = 0 ∨ r.size = 0) :
    emptyCount [r] = 1 := by
  rcases h with h | h <;> simp [emptyCount, List.filter, h]

/-- C7 (amended): a record with offset = 0 or length = 0 produces no record
and is not a failure (ground truth: one empty skip, zero failures), and the
scan continues — every visited slot still yields exactly its own per-slot
outcome; the code however keeps no distinct empty-skip counter. -/
theorem empty_slot_skipped (d : List Nat → Option (List Nat)) (dat : List Nat)
    (rs : List IndexRecord) (j : Nat)
    (hempty : (rs.getD j ⟨0, 0, 0⟩).offset = 0 ∨ (rs.getD j ⟨0, 0, 0⟩).size = 0) :
    decodeSlot d dat (rs.getD j ⟨0, 0, 0⟩) = none ∧
    (decodeSlots d rs dat).lookup j = none ∧
    failedCount d [rs.getD j ⟨0, 0, 0⟩] dat = 0 ∧
    emptyCount [rs.getD j ⟨0, 0, 0⟩] = 1 ∧
    ∀ i, i < min rs.length 100 →
      (decodeSlots d rs dat).lookup i = decodeSlot d dat (rs.getD i ⟨0, 0, 0⟩) := by
  have hnone : decodeSlot d dat (rs.getD j ⟨0, 0, 0⟩) = none := by
    rw [decodeSlot, if_neg]
    rintro ⟨ha, hb⟩
    rcases hempty with h | h <;> omega
  refine ⟨hnone, ?_, ?_, ?_, ?_⟩
  · rw [decodeSlots_lookup]
    split_ifs with h
    · exact hnone
    · rfl
  · exact failedCount_singleton_empty d dat _ hempty
  · exact emptyCount_singleton_empty _ hempty
  · intro i hi
    rw [decodeSlots_lookup, if_pos hi]

/-- Witness for C7 on the concrete run over `idxB`, whose slot 1 is empty. -/
theorem empty_slot_skipped_witness :
    ((parseIndex idxB).getD 1 ⟨0, 0, 0⟩).offset = 0 ∧
    decodeSlot dOracle datAB ((parseIndex idxB).getD 1 ⟨0, 0, 0⟩) = none ∧
    (decodeSlots dOracle (parseIndex idxB) datAB).lookup 1 = none := by
  have h := empty_slot_skipped dOracle datAB (parseIndex idxB) 1 (Or.inl (by decide))
  exact ⟨by decide, h.1, h.2.1⟩

/-- C7 counterexample: a run whose single slot is empty (`idxC`) and a run
whose single slot fails decompression (`idxD`) produce identical entries and
identical reported counts, though their ground-truth empty counts differ
(1 vs 0) — so nothing the code emits counts empty slots distinctly. -/
theorem no_empty_count_reported :
    read_sword_index dOracle modC = read_sword_index dOracle modD ∧
    reportedCounts dOracle modC = reportedCounts dOracle modD ∧
    emptyCount (parseIndex idxC) = 1 ∧
    emptyCount (parseIndex idxD) = 0 ∧
    failedCount dOracle (parseIndex idxD) datAB = 1 :=
  ⟨by decide, by decide, by decide, by decide, by decide⟩

lemma filterMap_verseElem_eq_map (entries : List (Nat × String))
    (hin : ∀ p ∈ entries, p.1 < 660000) :
    entries.filterMap (fun p => verseElem p.1 p.2) =
      entries.map (fun p => (verseElem p.1 p.2).getD "") := by
  induction entries with
  | nil => rfl
  | cons p rest ih =>
      have hp : p.1 < 660000 := hin p (List.mem_cons_self p rest)
      have hs : (verseElem p.1 p.2).isSome = true := by
        rw [verseElem_isSome_iff, referenceMap_isSome_iff]
        exact hp
      obtain ⟨v, hv⟩ := Option.isSome_iff_exists.mp hs
      simp only [List.filterMap_cons, hv, List.map_cons, Option.getD_some]
      rw [ih (fun q hq => hin q (List.mem_cons_of_mem p hq))]

/-- C4 (amended): for a sequence of at most 50 decoded records all of whose
slot indices map inside the catalog, the writer emits exactly one element per
record, in sequence order, each carrying the dotted reference and the escaped
record text; any records past the first 50 produce no element (see the
counterexample `writer_caps_at_50`). -/
theorem writer_one_element_per_record (entries : List (Nat × String))
    (hlen : entries.length ≤ 50)
    (hin : ∀ p ∈ entries, p.1 < 50 * 200 * 66) :
    (writeVerses entries).length = entries.length ∧
    writeVerses entries = entries.map (fun p => (verseElem p.1 p.2).getD "") := by
  have hin' : ∀ p ∈ entries, p.1 < 660000 := fun p hp => hin p hp
  have htake : entries.take 50 = entries := List.take_of_length_le hlen
  have hmap : writeVerses entries =
      entries.map (fun p => (verseElem p.1 p.2).getD "") := by
    rw [writeVerses, htake]
    exact filterMap_verseElem_eq_map entries hin'
  exact ⟨by rw [hmap, List.length_map], hmap⟩

/-- Witness for C4 on the single decoded record (slot 0, text "x"). -/
theorem writer_one_element_per_record_witness :
    ([(0, "x")] : List (Nat × String)).length ≤ 50 ∧
    ((writeVerses [(0, "x")]).length = ([(0, "x")] : List (Nat × String)).length ∧
      writeVerses [(0, "x")] =
        ([(0, "x")] : List (Nat × String)).map (fun p => (verseElem p.1 p.2).getD "")) :=
  ⟨by decide, writer_one_element_per_record [(0, "x")] (by decide) (by decide)⟩

/-- C4 counterexample: 51 in-range decoded records yield only 50 elements —
the writer visits `list(entries.items())[:50]`, so it does not write one
element per record for every sequence handed to it. -/
theorem writer_caps_at_50 :
    demo51.length = 51 ∧ (writeVerses demo51).length = 50 ∧ (51 : Nat) ≠ 50 :=
  ⟨by decide, by decide, by decide⟩

/-- C5 (amended): a missing index file does not abort the module: with the
config file and data directory present, the converter still emits the minimal
well-formed document (declaration, header, footer, no child elements) and
reports success — exactly the outcome of an index that is found but decodes
to zero usable entries. -/
theorem missing_index_emits_minimal_doc (d : List Nat → Option (List Nat))
    (m : SwordModule) (h1 : m.hasConf = true) (h2 : m.hasDataDir = true)
    (h3 : m.idxData = none ∨ read_sword_index d m = []) :
    convert_module_to_osis d m = some (osisDoc []) := by
  have hread : read_sword_index d m = [] := by
    rcases h3 with h | h
    · rw [read_sword_index, h]
    · exact h
  simp only [convert_module_to_osis, h1, h2, hread]
  norm_num
  rfl

/-- Witness for C5 on a module with config and data directory but no index
file at all. -/
theorem missing_index_emits_minimal_doc_witness :
    (⟨true, true, none, []⟩ : SwordModule).hasConf = true ∧
    (⟨true, true, none, []⟩ : SwordModule).hasDataDir = true ∧
    convert_module_to_osis dTotal ⟨true, true, none, []⟩ = some (osisDoc []) :=
  ⟨rfl, rfl,
    missing_index_emits_minimal_doc dTotal ⟨true, true, none, []⟩ rfl rfl (Or.inl rfl)⟩

/-- C5 counterexample: with config and data directory present, a module with
no index file and a module whose index exists but yields zero usable entries
produce the same successful outcome, the same minimal document — the no-index
module is not aborted and the two cases are not distinguished. -/
theorem missing_index_not_aborted :
    convert_module_to_osis dOracle ⟨true, true, none, []⟩ = some (osisDoc []) ∧
    convert_module_to_osis dOracle ⟨true, true, some [], []⟩ = some (osisDoc []) ∧
    (some (osisDoc []) : Option (List String)) ≠ none :=
  ⟨by decide, by decide, by decide⟩
